import Mathlib

/-!
Verification of the file-attachment resolution subsystem of the
`frankenstein` Telegram bot API client (files `src/input_file.rs` and
`src/trait_sync.rs`).

The data model (`InputFile`, `FileUpload`), the extraction primitives
(`replace_attach`, `replace_attach_dyn` — on `FileUpload` and on
`Option FileUpload`), the serde `Serialize`/`Deserialize` impls of
`InputFile`, and the per-operation wiring of `trait_sync.rs` are embedded
as executable Lean definitions, and the spec's properties are proved
about them.

Rust `Bytes` buffers are embedded as `List Nat` (one entry per byte) and
`PathBuf` as `String`; both are opaque payloads for every property at
stake.  Closures `impl FnOnce() -> usize` are embedded as `Unit → Nat`
thunks.
-/

namespace Frankenstein

/-- Type `InputFile` from `src/input_file.rs`: a new file to be uploaded via
multipart/form-data.  `Path` holds a filesystem path (Rust `PathBuf`,
embedded as `String`); `Memory` holds a display name and an owned byte
buffer (Rust `Bytes`, embedded as `List Nat`). -/
inductive InputFile where
  | Path (path : String)
  | Memory (file_name : String) (data : List Nat)
  deriving DecidableEq, Repr

/-- Type `FileUpload` from `src/input_file.rs`: either a reference string
(`file_id`, URL, or an `attach://<name>` token) or a new `InputFile` to
upload. -/
inductive FileUpload where
  | String (s : String)
  | InputFile (f : InputFile)
  deriving DecidableEq, Repr

/-- The JSON data model the serde serializers target. -/
inductive Json where
  | null
  | str (s : String)
  | num (n : Int)
  | boolean (b : Bool)
  | arr (items : List Json)
  | obj (fields : List (String × Json))

/-- Serialization of `InputFile` (`src/input_file.rs`):
`serializer.serialize_none()`, i.e. JSON `null`, whatever the variant. -/
def InputFile.serialize (_ : InputFile) : Json :=
  Json.null

/-- Untagged serde serialization of `FileUpload`: the `String`
variant serializes as its string, the `InputFile` variant by
`InputFile::serialize`. -/
def FileUpload.serialize : FileUpload → Json
  | .String s => Json.str s
  | .InputFile f => f.serialize

/-- Method `HasInputFile::replace_attach` for `FileUpload`
(`src/input_file.rs` lines 298-309).  The Rust method mutates `self` and
returns `Option<InputFile>`; the embedding returns the updated field
together with the extracted file. -/
def replace_attach : FileUpload → String → FileUpload × Option InputFile
  | .InputFile file, name => (.String ("attach://" ++ name), some file)
  | .String s, _ => (.String s, none)

/-- Method `HasInputFile::replace_attach_dyn` for `FileUpload`
(`src/input_file.rs` lines 311-323).  The `index` closure is embedded as
a thunk; it is forced only in the `InputFile` branch, mirroring the lazy
`index()` call in the source. -/
def replace_attach_dyn : FileUpload → (Unit → Nat) → FileUpload × Option (String × InputFile)
  | .InputFile file, index =>
      let name := "file" ++ Nat.repr (index ())
      (.String ("attach://" ++ name), some (name, file))
  | .String s, _ => (.String s, none)

/-- Method `HasInputFile::replace_attach` for `Option<FileUpload>`
(`src/input_file.rs` lines 328-339). -/
def replace_attach_opt : Option FileUpload → String → Option FileUpload × Option InputFile
  | some (.InputFile file), name => (some (.String ("attach://" ++ name)), some file)
  | other, _ => (other, none)

/-- Method `HasInputFile::replace_attach_dyn` for `Option<FileUpload>`
(`src/input_file.rs` lines 341-353). -/
def replace_attach_dyn_opt : Option FileUpload → (Unit → Nat) → Option FileUpload × Option (String × InputFile)
  | some (.InputFile file), index =>
      let name := "file" ++ Nat.repr (index ())
      (some (.String ("attach://" ++ name)), some (name, file))
  | other, _ => (other, none)

/-- Self-describing input values a serde `Deserializer` can feed to the
`InputFileVisitor` of `src/input_file.rs` via `deserialize_any`: strings,
maps, the unit value, an absent (`none`) value, and other shapes the
visitor has no handler for (numbers, booleans). -/
inductive DeValue where
  | str (s : String)
  | map (entries : List (String × DeValue))
  | unit
  | nothing
  | num (n : Int)
  | boolean (b : Bool)

/-- The serde error constructors `InputFileVisitor` uses: `invalid_type`
(with a tag for the unexpected shape) and `missing_field`. -/
inductive DeError where
  | invalid_type (unexpected : String)
  | missing_field (field : String)
  deriving DecidableEq, Repr

/-- Call `map.next_value::<PathBuf>()` inside `visit_map`: a `PathBuf`
deserializes from a string and rejects every other shape. -/
def nextValuePathBuf : DeValue → Except DeError String
  | .str s => .ok s
  | _ => .error (.invalid_type "non-string path")

/-- The `while let Some(key) = map.next_key()` loop of `visit_map`
(`src/input_file.rs` lines 98-114): a `"path"` key parses its value as a
`PathBuf` (errors propagate via `?`), every other key's value is consumed
as `IgnoredAny`. -/
def visitMapLoop : List (String × DeValue) → Option String → Except DeError (Option String)
  | [], path => .ok path
  | (key, value) :: rest, path =>
      if key = "path" then
        match nextValuePathBuf value with
        | .ok p => visitMapLoop rest (some p)
        | .error e => .error e
      else
        visitMapLoop rest path

/-- Deserialization of `InputFile` (`src/input_file.rs` lines 52-122):
`deserialize_any` dispatches on the input shape to `InputFileVisitor`.
`visit_str`/`visit_string` build `Path`, `visit_unit` and `visit_none`
fail with `invalid_type`, `visit_map` runs the key loop and then requires
a `"path"` key; shapes without a handler hit serde's default visitor
methods, which fail with `invalid_type`. -/
def InputFile.deserialize : DeValue → Except DeError InputFile
  | .str s => .ok (.Path s)
  | .map entries =>
      match visitMapLoop entries none with
      | .ok (some p) => .ok (.Path p)
      | .ok none => .error (.missing_field "path")
      | .error e => .error e
  | .unit => .error (.invalid_type "unit")
  | .nothing => .error (.invalid_type "option")
  | .num _ => .error (.invalid_type "integer")
  | .boolean _ => .error (.invalid_type "boolean")

/-- The transport boundary of `trait_sync.rs`: an operation either sends
a plain JSON-body call (`request`) or a multipart call carrying named
binary parts (`request_with_form_data`).  `P` is the (post-extraction)
parameter structure type. -/
inductive Transport (P : Type) where
  | request (method : String) (params : Option P)
  | request_with_form_data (method : String) (params : P) (files : List (String × InputFile))

/-- Dispatcher `TelegramApi::request_with_possible_form_data` (`trait_sync.rs` lines
426-441): plain JSON when `files` is empty, multipart otherwise. -/
def request_with_possible_form_data {P : Type} (method : String) (params : P)
    (files : List (String × InputFile)) : Transport P :=
  if files.isEmpty then .request method (some params)
  else .request_with_form_data method params files

/-- Modelled from the spec: the per-item media descriptor for audio
("each with its own primary file field and optional secondary fields such
as a thumbnail"); `crate::input_media::InputMediaAudio` is outside the
given sources. -/
structure InputMediaAudio where
  media : FileUpload
  thumbnail : Option FileUpload
  deriving DecidableEq, Repr

/-- Modelled from the spec: the per-item media descriptor for documents;
`crate::input_media::InputMediaDocument` is outside the given sources. -/
structure InputMediaDocument where
  media : FileUpload
  thumbnail : Option FileUpload
  deriving DecidableEq, Repr

/-- Modelled from the spec: the per-item media descriptor for photos;
`crate::input_media::InputMediaPhoto` is outside the given sources. -/
structure InputMediaPhoto where
  media : FileUpload
  deriving DecidableEq, Repr

/-- Modelled from the spec: the per-item media descriptor for video
("primary video, optional cover image, optional thumbnail");
`crate::input_media::InputMediaVideo` is outside the given sources. -/
structure InputMediaVideo where
  media : FileUpload
  cover : Option FileUpload
  thumbnail : Option FileUpload
  deriving DecidableEq, Repr

/-- Modelled from the spec: the per-item media descriptor for animations;
`crate::input_media::InputMediaAnimation` is outside the given sources. -/
structure InputMediaAnimation where
  media : FileUpload
  thumbnail : Option FileUpload
  deriving DecidableEq, Repr

/-- Modelled from the spec: the tagged per-item structures of a media
group ("photo / video / audio / document variants");
`crate::input_media::MediaGroupInputMedia` is outside the given
sources. -/
inductive MediaGroupInputMedia where
  | Audio (audio : InputMediaAudio)
  | Document (document : InputMediaDocument)
  | Photo (photo : InputMediaPhoto)
  | Video (video : InputMediaVideo)
  deriving DecidableEq, Repr

/-- Modelled from the spec: the five-way tagged media content of "edit
media"; `crate::input_media::InputMedia` is outside the given sources. -/
inductive InputMedia where
  | Animation (animation : InputMediaAnimation)
  | Document (document : InputMediaDocument)
  | Audio (audio : InputMediaAudio)
  | Photo (photo : InputMediaPhoto)
  | Video (video : InputMediaVideo)
  deriving DecidableEq, Repr

/-- Modelled from the spec: parameters of the batch "send media group"
operation (an ordered sequence of media items);
`crate::methods::SendMediaGroupParams` is outside the given sources. -/
structure SendMediaGroupParams where
  chat_id : Int
  media : List MediaGroupInputMedia
  deriving DecidableEq, Repr

/-- Modelled from the spec: parameters of "send a video" (primary video,
optional cover image, optional thumbnail);
`crate::methods::SendVideoParams` is outside the given sources. -/
structure SendVideoParams where
  chat_id : Int
  video : FileUpload
  cover : Option FileUpload
  thumbnail : Option FileUpload
  deriving DecidableEq, Repr

/-- Modelled from the spec: parameters of "set chat photo" — the file
field is mandatory (an `InputFile`, not wrapped in an optional case);
`crate::methods::SetChatPhotoParams` is outside the given sources. -/
structure SetChatPhotoParams where
  chat_id : Int
  photo : InputFile
  deriving DecidableEq, Repr

/-- Modelled from the spec: parameters of "upload a sticker file" — the
file field is mandatory; `crate::methods::UploadStickerFileParams` is
outside the given sources. -/
structure UploadStickerFileParams where
  user_id : Int
  sticker : InputFile
  sticker_format : String
  deriving DecidableEq, Repr

/-- Modelled from the spec: one sticker of a new sticker set, holding a
`FileUpload`-valued file field; `crate::stickers::InputSticker` is
outside the given sources. -/
structure InputSticker where
  sticker : FileUpload
  format : String
  deriving DecidableEq, Repr

/-- Modelled from the spec: parameters of "create new sticker set" (an
ordered sequence of stickers);
`crate::methods::CreateNewStickerSetParams` is outside the given
sources. -/
structure CreateNewStickerSetParams where
  user_id : Int
  name : String
  stickers : List InputSticker
  deriving DecidableEq, Repr

/-- Modelled from the spec: parameters of "edit media";
`crate::methods::EditMessageMediaParams` is outside the given sources. -/
structure EditMessageMediaParams where
  media : InputMedia
  deriving DecidableEq, Repr

/-- Modelled from the spec: photo story content;
`crate::input_media::InputStoryContentPhoto` is outside the given
sources. -/
structure InputStoryContentPhoto where
  photo : FileUpload
  deriving DecidableEq, Repr

/-- Modelled from the spec: video story content;
`crate::input_media::InputStoryContentVideo` is outside the given
sources. -/
structure InputStoryContentVideo where
  video : FileUpload
  deriving DecidableEq, Repr

/-- Modelled from the spec: photo-or-video story content;
`crate::input_media::InputStoryContent` is outside the given sources. -/
inductive InputStoryContent where
  | Photo (photo_content : InputStoryContentPhoto)
  | Video (video_content : InputStoryContentVideo)
  deriving DecidableEq, Repr

/-- Modelled from the spec: parameters of "post a story";
`crate::methods::PostStoryParams` is outside the given sources. -/
structure PostStoryParams where
  business_connection_id : String
  content : InputStoryContent
  active_period : Int
  deriving DecidableEq, Repr

/-- One expansion step of the field visits generated by `request_f!`
(`trait_sync.rs` lines 58-62) for a plain `FileUpload` field: attempt
`replace_attach` with the field's fixed `name`; on `Some`, push
`(name, file)` onto `files`. -/
def pushAttachFU (field : FileUpload) (name : String)
    (files : List (String × InputFile)) : FileUpload × List (String × InputFile) :=
  match replace_attach field name with
  | (f', some file) => (f', files ++ [(name, file)])
  | (f', none) => (f', files)

/-- One expansion step of the field visits generated by `request_f!` for
an `Option FileUpload` field. -/
def pushAttachOpt (field : Option FileUpload) (name : String)
    (files : List (String × InputFile)) : Option FileUpload × List (String × InputFile) :=
  match replace_attach_opt field name with
  | (f', some file) => (f', files ++ [(name, file)])
  | (f', none) => (f', files)

/-- The `replace_attach!` macro body of `send_media_group`
(`trait_sync.rs` lines 93-99) for a plain `FileUpload` field:
`replace_attach_dyn(|| files.len())`, pushing the returned
`(name, file)` pair on success. -/
def pushAttachDynFU (field : FileUpload)
    (files : List (String × InputFile)) : FileUpload × List (String × InputFile) :=
  match replace_attach_dyn field (fun _ => files.length) with
  | (f', some pair) => (f', files ++ [pair])
  | (f', none) => (f', files)

/-- The `replace_attach!` macro body of `send_media_group` for an
`Option FileUpload` field. -/
def pushAttachDynOpt (field : Option FileUpload)
    (files : List (String × InputFile)) : Option FileUpload × List (String × InputFile) :=
  match replace_attach_dyn_opt field (fun _ => files.length) with
  | (f', some pair) => (f', files ++ [pair])
  | (f', none) => (f', files)

/-- The per-item `match media` body of `send_media_group`
(`trait_sync.rs` lines 103-119): audio visits media then thumbnail,
document visits media, photo visits media, video visits media then cover
then thumbnail. -/
def extractMediaGroupItem : MediaGroupInputMedia → List (String × InputFile) →
    MediaGroupInputMedia × List (String × InputFile)
  | .Audio a, files =>
      let (m, files) := pushAttachDynFU a.media files
      let (t, files) := pushAttachDynOpt a.thumbnail files
      (.Audio { a with media := m, thumbnail := t }, files)
  | .Document d, files =>
      let (m, files) := pushAttachDynFU d.media files
      (.Document { d with media := m }, files)
  | .Photo p, files =>
      let (m, files) := pushAttachDynFU p.media files
      (.Photo { p with media := m }, files)
  | .Video v, files =>
      let (m, files) := pushAttachDynFU v.media files
      let (c, files) := pushAttachDynOpt v.cover files
      let (t, files) := pushAttachDynOpt v.thumbnail files
      (.Video { v with media := m, cover := c, thumbnail := t }, files)

/-- The `for media in &mut params.media` loop of `send_media_group`
(`trait_sync.rs` lines 102-120), threading the shared `files`
accumulator through the items in sequence order. -/
def extractMediaList : List MediaGroupInputMedia → List (String × InputFile) →
    List MediaGroupInputMedia × List (String × InputFile)
  | [], files => ([], files)
  | m :: rest, files =>
      let (m', files') := extractMediaGroupItem m files
      let (rest', files'') := extractMediaList rest files'
      (m' :: rest', files'')

/-- Operation `TelegramApi::send_media_group` (`trait_sync.rs` lines 87-123):
clone the parameters, run the extraction loop, dispatch through
`request_with_possible_form_data`. -/
def send_media_group (params : SendMediaGroupParams) : Transport SendMediaGroupParams :=
  let (media', files) := extractMediaList params.media []
  request_with_possible_form_data "sendMediaGroup" { params with media := media' } files

/-- Operation `TelegramApi::send_video`, the `request_f!(sendVideo, Message,
video, cover, thumbnail)` expansion (`trait_sync.rs` lines 48-67 and
126): each of the three fields is visited in order with its own fixed
name. -/
def send_video (params : SendVideoParams) : Transport SendVideoParams :=
  let files : List (String × InputFile) := []
  let (video, files) := pushAttachFU params.video "video" files
  let (cover, files) := pushAttachOpt params.cover "cover" files
  let (thumbnail, files) := pushAttachOpt params.thumbnail "thumbnail" files
  request_with_possible_form_data "sendVideo"
    { params with video := video, cover := cover, thumbnail := thumbnail } files

/-- Operation `TelegramApi::set_chat_photo` (`trait_sync.rs` lines 162-169): no
extraction — the mandatory `photo : InputFile` is cloned into a
single-part file list and the call goes directly through
`request_with_form_data`. -/
def set_chat_photo (params : SetChatPhotoParams) : Transport SetChatPhotoParams :=
  let files := [("photo", params.photo)]
  Transport.request_with_form_data "setChatPhoto" params files

/-- Operation `TelegramApi::upload_sticker_file` (`trait_sync.rs` lines 263-270):
the mandatory `sticker : InputFile` is cloned into a single-part file
list and the call goes directly through `request_with_form_data`. -/
def upload_sticker_file (params : UploadStickerFileParams) : Transport UploadStickerFileParams :=
  let files := [("sticker", params.sticker)]
  Transport.request_with_form_data "uploadStickerFile" params files

/-- The `for (index, sticker) in params.stickers.iter_mut().enumerate()`
loop of `create_new_sticker_set` (`trait_sync.rs` lines 279-283): each
sticker's file field is visited with `replace_attach_dyn(|| index)`,
where `index` is the sticker's position in the sequence. -/
def extractStickers : List InputSticker → Nat → List (String × InputFile) →
    List InputSticker × List (String × InputFile)
  | [], _, files => ([], files)
  | s :: rest, index, files =>
      let (f', r) := replace_attach_dyn s.sticker (fun _ => index)
      let files' := match r with
        | some pair => files ++ [pair]
        | none => files
      let (rest', files'') := extractStickers rest (index + 1) files'
      ({ s with sticker := f' } :: rest', files'')

/-- Operation `TelegramApi::create_new_sticker_set` (`trait_sync.rs` lines
272-286). -/
def create_new_sticker_set (params : CreateNewStickerSetParams) :
    Transport CreateNewStickerSetParams :=
  let (stickers', files) := extractStickers params.stickers 0 []
  request_with_possible_form_data "createNewStickerSet"
    { params with stickers := stickers' } files

/-- The `match &mut params.media` body of `edit_message_media`
(`trait_sync.rs` lines 228-249): exactly one branch is active; each
visited field gets the fixed branch-specific name
`<base>_<property>`. -/
def extractEditMedia : InputMedia → List (String × InputFile) →
    InputMedia × List (String × InputFile)
  | .Animation a, files =>
      let (m, files) := pushAttachFU a.media "animation_media" files
      let (t, files) := pushAttachOpt a.thumbnail "animation_thumbnail" files
      (.Animation { a with media := m, thumbnail := t }, files)
  | .Document d, files =>
      let (m, files) := pushAttachFU d.media "document_media" files
      let (t, files) := pushAttachOpt d.thumbnail "document_thumbnail" files
      (.Document { d with media := m, thumbnail := t }, files)
  | .Audio a, files =>
      let (m, files) := pushAttachFU a.media "audio_media" files
      let (t, files) := pushAttachOpt a.thumbnail "audio_thumbnail" files
      (.Audio { a with media := m, thumbnail := t }, files)
  | .Photo p, files =>
      let (m, files) := pushAttachFU p.media "photo_media" files
      (.Photo { p with media := m }, files)
  | .Video v, files =>
      let (m, files) := pushAttachFU v.media "video_media" files
      let (c, files) := pushAttachOpt v.cover "video_cover" files
      let (t, files) := pushAttachOpt v.thumbnail "video_thumbnail" files
      (.Video { v with media := m, cover := c, thumbnail := t }, files)

/-- Operation `TelegramApi::edit_message_media` (`trait_sync.rs` lines
212-252). -/
def edit_message_media (params : EditMessageMediaParams) :
    Transport EditMessageMediaParams :=
  let (media', files) := extractEditMedia params.media []
  request_with_possible_form_data "editMessageMedia"
    { params with media := media' } files

/-- The `match &mut params.content` body of `post_story`
(`trait_sync.rs` lines 365-376): the active branch's file field is
visited with a fixed branch-specific name. -/
def extractStoryContent : InputStoryContent → List (String × InputFile) →
    InputStoryContent × List (String × InputFile)
  | .Photo pc, files =>
      let (p, files) := pushAttachFU pc.photo "photo_content" files
      (.Photo { pc with photo := p }, files)
  | .Video vc, files =>
      let (v, files) := pushAttachFU vc.video "video_content" files
      (.Video { vc with video := v }, files)

/-- Operation `TelegramApi::post_story` (`trait_sync.rs` lines 357-379). -/
def post_story (params : PostStoryParams) : Transport PostStoryParams :=
  let (content', files) := extractStoryContent params.content []
  request_with_possible_form_data "postStory"
    { params with content := content' } files

/-- A call to `send_video` as observed by the caller: the operation
receives a shared reference to the caller's structure and works on a
clone (`let mut params = params.clone()`, `trait_sync.rs` line 57), so
the first component — the caller's structure after the call — is the
structure the call was given. -/
def send_video_call (caller : SendVideoParams) :
    SendVideoParams × Transport SendVideoParams :=
  (caller, send_video caller)

/-- A call to `send_media_group` as observed by the caller
(`params.clone()`, `trait_sync.rs` line 101). -/
def send_media_group_call (caller : SendMediaGroupParams) :
    SendMediaGroupParams × Transport SendMediaGroupParams :=
  (caller, send_media_group caller)

/-- A call to `edit_message_media` as observed by the caller
(`params.clone()`, `trait_sync.rs` line 227). -/
def edit_message_media_call (caller : EditMessageMediaParams) :
    EditMessageMediaParams × Transport EditMessageMediaParams :=
  (caller, edit_message_media caller)

/-- A call to `create_new_sticker_set` as observed by the caller
(`params.clone()`, `trait_sync.rs` line 278). -/
def create_new_sticker_set_call (caller : CreateNewStickerSetParams) :
    CreateNewStickerSetParams × Transport CreateNewStickerSetParams :=
  (caller, create_new_sticker_set caller)

/-- A call to `post_story` as observed by the caller (`params.clone()`,
`trait_sync.rs` line 363). -/
def post_story_call (caller : PostStoryParams) :
    PostStoryParams × Transport PostStoryParams :=
  (caller, post_story caller)

/-- A call to `set_chat_photo` as observed by the caller
(`params.clone()`, `trait_sync.rs` line 166). -/
def set_chat_photo_call (caller : SetChatPhotoParams) :
    SetChatPhotoParams × Transport SetChatPhotoParams :=
  (caller, set_chat_photo caller)

/-- A call to `upload_sticker_file` as observed by the caller
(`params.clone()`, `trait_sync.rs` line 267). -/
def upload_sticker_file_call (caller : UploadStickerFileParams) :
    UploadStickerFileParams × Transport UploadStickerFileParams :=
  (caller, upload_sticker_file caller)

/-- C1: `replace_attach` on a `String` (Reference) field returns `none`
and leaves the field unchanged; on an `InputFile` (Pending) field it
replaces the field with `String ("attach://" ++ name)` and returns
exactly the stored file; and whenever it returns `some`, the updated
field is not left in the `InputFile` (Pending) variant. -/
theorem replace_attach_spec (name : String) :
    (∀ s, replace_attach (.String s) name = (.String s, none)) ∧
    (∀ r, replace_attach (.InputFile r) name =
      (.String ("attach://" ++ name), some r)) ∧
    (∀ field field' r, replace_attach field name = (field', some r) →
      ∀ f, field' ≠ FileUpload.InputFile f) := by
  refine ⟨fun _ => rfl, fun _ => rfl, ?_⟩
  intro field field' r h f
  cases field with
  | String s => simp [replace_attach] at h
  | InputFile g =>
      simp only [replace_attach] at h
      obtain ⟨h1, _⟩ := Prod.mk.injEq .. ▸ h
      rw [← h1]
      simp

/-- Witness for C1 at the spec's own example: `extract_one(field,
"demo")` on `Pending(InMemory("demo.bin", [1,2,3]))`. -/
theorem replace_attach_spec_witness :
    replace_attach (.String "file_id") "demo" = (.String "file_id", none) ∧
    replace_attach (.InputFile (.Memory "demo.bin" [1, 2, 3])) "demo" =
      (.String ("attach://" ++ "demo"), some (.Memory "demo.bin" [1, 2, 3])) ∧
    (FileUpload.String "attach://demo" ≠
      FileUpload.InputFile (.Memory "demo.bin" [1, 2, 3])) := by
  refine ⟨(replace_attach_spec "demo").1 "file_id",
    (replace_attach_spec "demo").2.1 (.Memory "demo.bin" [1, 2, 3]), ?_⟩
  have h := (replace_attach_spec "demo").2.2
    (.InputFile (.Memory "demo.bin" [1, 2, 3]))
    (.String ("attach://" ++ "demo")) (.Memory "demo.bin" [1, 2, 3])
    ((replace_attach_spec "demo").2.1 (.Memory "demo.bin" [1, 2, 3]))
    (.Memory "demo.bin" [1, 2, 3])
  exact h

/-- C2: `replace_attach_dyn` on a `String` (Reference) field returns
`none`, leaves the field unchanged, and its result does not depend on
the index-producing function (the closure is never invoked); on an
`InputFile` (Pending) field the synthesized name is exactly
`"file" ++ index()`, the field becomes
`String ("attach://file" ++ index())`, and the displaced file is
returned with that name. -/
theorem replace_attach_dyn_spec :
    (∀ s (i₁ i₂ : Unit → Nat),
      replace_attach_dyn (.String s) i₁ = replace_attach_dyn (.String s) i₂ ∧
      replace_attach_dyn (.String s) i₁ = (.String s, none)) ∧
    (∀ r (i : Unit → Nat),
      replace_attach_dyn (.InputFile r) i =
        (.String ("attach://file" ++ Nat.repr (i ())),
         some ("file" ++ Nat.repr (i ()), r))) := by
  refine ⟨fun _ _ _ => ⟨rfl, rfl⟩, fun r i => ?_⟩
  simp only [replace_attach_dyn, ← String.append_assoc]
  rfl

/-- C6: any `InputFile`, of either variant, serializes to JSON `null`
directly (no extraction), and so does a `FileUpload` wrapping one; in
particular the output is the same whatever `file_name`/`data` the
`Memory` variant holds — nothing about them is observable. -/
theorem input_file_serialize_null :
    (∀ f : InputFile, f.serialize = Json.null) ∧
    (∀ file_name data,
      (FileUpload.InputFile (.Memory file_name data)).serialize = Json.null) ∧
    (∀ f g : InputFile,
      (FileUpload.InputFile f).serialize = (FileUpload.InputFile g).serialize) :=
  ⟨fun _ => rfl, fun _ _ => rfl, fun _ _ => rfl⟩

/-- C10: on an `Option FileUpload` field that is `none` or
`some (String _)`, both `replace_attach` and `replace_attach_dyn` return
`none` and leave the field exactly as it was, and `replace_attach_dyn`'s
result does not depend on the index function; only on
`some (InputFile _)` is the field rewritten to
`some (String ("attach://" ++ name))` with the inner file returned. -/
theorem replace_attach_opt_spec :
    (∀ name, replace_attach_opt none name = (none, none)) ∧
    (∀ name s, replace_attach_opt (some (.String s)) name =
      (some (.String s), none)) ∧
    (∀ name f, replace_attach_opt (some (.InputFile f)) name =
      (some (.String ("attach://" ++ name)), some f)) ∧
    (∀ (i₁ i₂ : Unit → Nat),
      replace_attach_dyn_opt none i₁ = replace_attach_dyn_opt none i₂ ∧
      replace_attach_dyn_opt none i₁ = (none, none)) ∧
    (∀ (i₁ i₂ : Unit → Nat) s,
      replace_attach_dyn_opt (some (.String s)) i₁ =
        replace_attach_dyn_opt (some (.String s)) i₂ ∧
      replace_attach_dyn_opt (some (.String s)) i₁ = (some (.String s), none)) ∧
    (∀ (i : Unit → Nat) f,
      replace_attach_dyn_opt (some (.InputFile f)) i =
        (some (.String ("attach://file" ++ Nat.repr (i ()))),
         some ("file" ++ Nat.repr (i ()), f))) := by
  refine ⟨fun _ => rfl, fun _ _ => rfl, fun _ _ => rfl,
    fun _ _ => ⟨rfl, rfl⟩, fun _ _ _ => ⟨rfl, rfl⟩, fun i f => ?_⟩
  simp only [replace_attach_dyn_opt, ← String.append_assoc]
  rfl

/-- C3: `set_chat_photo` and `upload_sticker_file` hand the transport a
binary-part list with exactly one part (named `"photo"` respectively
`"sticker"`), and always go through `request_with_form_data`, never
through the plain-JSON `request` path. -/
theorem mandatory_file_ops_spec :
    (∀ p : SetChatPhotoParams,
      set_chat_photo p =
        Transport.request_with_form_data "setChatPhoto" p [("photo", p.photo)] ∧
      ∀ method q, set_chat_photo p ≠ Transport.request method q) ∧
    (∀ p : UploadStickerFileParams,
      upload_sticker_file p =
        Transport.request_with_form_data "uploadStickerFile" p
          [("sticker", p.sticker)] ∧
      ∀ method q, upload_sticker_file p ≠ Transport.request method q) := by
  refine ⟨fun p => ⟨rfl, ?_⟩, fun p => ⟨rfl, ?_⟩⟩ <;>
    · intro method q h
      simp [set_chat_photo, upload_sticker_file] at h

/-- C8: a `send_video` call with `video = Pending(InMemory("clip.mp4",
bytes))`, `cover = Reference("file_id_123")`, `thumbnail =
Pending(InMemory("thumb.jpg", bytes2))` leaves, after extraction,
`video = Reference("attach://video")`, `cover` untouched, `thumbnail =
Reference("attach://thumbnail")`, and hands the transport exactly the
parts `[("video", clip), ("thumbnail", thumb)]` in that order — the
`cover` field yielding `None` does not stop `thumbnail` from being
attempted with its own fixed name. -/
theorem send_video_end_to_end (chat : Int) (bytes bytes2 : List Nat) :
    send_video
      ⟨chat, .InputFile (.Memory "clip.mp4" bytes),
        some (.String "file_id_123"),
        some (.InputFile (.Memory "thumb.jpg" bytes2))⟩ =
      Transport.request_with_form_data "sendVideo"
        ⟨chat, .String "attach://video", some (.String "file_id_123"),
          some (.String "attach://thumbnail")⟩
        [("video", .Memory "clip.mp4" bytes),
         ("thumbnail", .Memory "thumb.jpg" bytes2)] := by
  rfl

/-- C9: every embedded file-bearing operation leaves the caller's
original parameter structure completely unchanged — the operation clones
the structure it receives by reference and extraction mutates only the
clone. -/
theorem caller_params_untouched :
    (∀ p, (send_video_call p).1 = p) ∧
    (∀ p, (send_media_group_call p).1 = p) ∧
    (∀ p, (edit_message_media_call p).1 = p) ∧
    (∀ p, (create_new_sticker_set_call p).1 = p) ∧
    (∀ p, (post_story_call p).1 = p) ∧
    (∀ p, (set_chat_photo_call p).1 = p) ∧
    (∀ p, (upload_sticker_file_call p).1 = p) :=
  ⟨fun _ => rfl, fun _ => rfl, fun _ => rfl, fun _ => rfl,
   fun _ => rfl, fun _ => rfl, fun _ => rfl⟩

/-- If every `"path"`-keyed entry of the remaining map holds the string
`p`, the key loop keeps an already-seen path `p`. -/
theorem visitMapLoop_keep (p : String) :
    ∀ entries : List (String × DeValue),
      (∀ v, ("path", v) ∈ entries → v = DeValue.str p) →
      visitMapLoop entries (some p) = .ok (some p) := by
  intro entries
  induction entries with
  | nil => intro _; rfl
  | cons e rest ih =>
      intro h
      obtain ⟨k, v⟩ := e
      by_cases hk : k = "path"
      · subst hk
        have hv : v = DeValue.str p := h v (List.mem_cons_self _ _)
        subst hv
        simp only [visitMapLoop, if_pos rfl, nextValuePathBuf]
        exact ih fun w hw => h w (List.mem_cons_of_mem _ hw)
      · simp only [visitMapLoop, if_neg hk]
        exact ih fun w hw => h w (List.mem_cons_of_mem _ hw)

/-- If the map holds a `"path"` entry with string value `p` and every
`"path"`-keyed entry holds that same string, the key loop yields `p`
from any starting accumulator. -/
theorem visitMapLoop_found (p : String) :
    ∀ (entries : List (String × DeValue)) (acc : Option String),
      ("path", DeValue.str p) ∈ entries →
      (∀ v, ("path", v) ∈ entries → v = DeValue.str p) →
      visitMapLoop entries acc = .ok (some p) := by
  intro entries
  induction entries with
  | nil => intro _ hmem _; cases hmem
  | cons e rest ih =>
      intro acc hmem h
      obtain ⟨k, v⟩ := e
      by_cases hk : k = "path"
      · subst hk
        have hv : v = DeValue.str p := h v (List.mem_cons_self _ _)
        subst hv
        simp only [visitMapLoop, if_pos rfl, nextValuePathBuf]
        exact visitMapLoop_keep p rest fun w hw => h w (List.mem_cons_of_mem _ hw)
      · simp only [visitMapLoop, if_neg hk]
        rcases List.mem_cons.mp hmem with heq | hmem'
        · cases heq; exact absurd rfl hk
        · exact ih acc hmem' fun w hw => h w (List.mem_cons_of_mem _ hw)

/-- Without any `"path"`-keyed entry the key loop returns its starting
accumulator. -/
theorem visitMapLoop_missing :
    ∀ (entries : List (String × DeValue)) (acc : Option String),
      (∀ v, ("path", v) ∉ entries) →
      visitMapLoop entries acc = .ok acc := by
  intro entries
  induction entries with
  | nil => intro _ _; rfl
  | cons e rest ih =>
      intro acc h
      obtain ⟨k, v⟩ := e
      by_cases hk : k = "path"
      · subst hk
        exact absurd (List.mem_cons_self _ _) (h v)
      · simp only [visitMapLoop, if_neg hk]
        exact ih acc fun w hw => h w (List.mem_cons_of_mem _ hw)

/-- C7: deserializing an `InputFile` succeeds on a string (yielding
`Path` of that string); succeeds on a map holding a `"path"` key with a
string value (other keys ignored) yielding `Path(path)`; fails with
`missing_field("path")` on a map without that key; fails with an
`invalid_type` error on a unit or absent input; and never produces the
`Memory` variant. -/
theorem deserialize_spec :
    (∀ s, InputFile.deserialize (.str s) = .ok (.Path s)) ∧
    (∀ (entries : List (String × DeValue)) (p : String),
      ("path", DeValue.str p) ∈ entries →
      (∀ v, ("path", v) ∈ entries → v = DeValue.str p) →
      InputFile.deserialize (.map entries) = .ok (.Path p)) ∧
    (∀ entries : List (String × DeValue), (∀ v, ("path", v) ∉ entries) →
      InputFile.deserialize (.map entries) = .error (.missing_field "path")) ∧
    InputFile.deserialize .unit = .error (.invalid_type "unit") ∧
    InputFile.deserialize .nothing = .error (.invalid_type "option") ∧
    (∀ v file_name data,
      InputFile.deserialize v ≠ .ok (.Memory file_name data)) := by
  refine ⟨fun _ => rfl, ?_, ?_, rfl, rfl, ?_⟩
  · intro entries p hmem h
    simp only [InputFile.deserialize, visitMapLoop_found p entries none hmem h]
  · intro entries h
    simp only [InputFile.deserialize, visitMapLoop_missing entries none h]
  · intro v file_name data h
    cases v with
    | str s => simp [InputFile.deserialize] at h
    | map entries =>
        simp only [InputFile.deserialize] at h
        rcases hm : visitMapLoop entries none with e | o
        · rw [hm] at h; simp at h
        · rw [hm] at h
          cases o with
          | none => simp at h
          | some p => simp at h
    | unit => simp [InputFile.deserialize] at h
    | nothing => simp [InputFile.deserialize] at h
    | num n => simp [InputFile.deserialize] at h
    | boolean b => simp [InputFile.deserialize] at h

/-- Witness for C7 at concrete inputs: a plain string; a map with
`file_name`, `path`, and an unknown key; a map without `path`; unit and
absent values. -/
theorem deserialize_spec_witness :
    InputFile.deserialize (.str "photo.png") = .ok (.Path "photo.png") ∧
    InputFile.deserialize
      (.map [("file_name", .str "x"), ("path", .str "a.png"), ("junk", .num 3)]) =
      .ok (.Path "a.png") ∧
    InputFile.deserialize (.map [("file_name", .str "x"), ("junk", .num 3)]) =
      .error (.missing_field "path") ∧
    InputFile.deserialize .unit = .error (.invalid_type "unit") ∧
    InputFile.deserialize .nothing = .error (.invalid_type "option") ∧
    InputFile.deserialize (.str "photo.png") ≠ .ok (.Memory "photo.png" []) := by
  refine ⟨deserialize_spec.1 "photo.png", ?_, ?_,
    deserialize_spec.2.2.2.1, deserialize_spec.2.2.2.2.1,
    deserialize_spec.2.2.2.2.2 (.str "photo.png") "photo.png" []⟩
  · refine deserialize_spec.2.1 _ "a.png" (by simp) ?_
    intro v hv
    simp only [List.mem_cons, List.mem_singleton] at hv
    rcases hv with h | h | h | h
    · exact absurd (congrArg Prod.fst h) (by simp)
    · exact (Prod.mk.injEq .. ▸ h).2
    · exact absurd (congrArg Prod.fst h) (by simp)
    · cases h
  · refine deserialize_spec.2.2.1 _ ?_
    intro v hv
    simp only [List.mem_cons, List.mem_singleton] at hv
    rcases hv with h | h | h
    · exact absurd (congrArg Prod.fst h) (by simp)
    · exact absurd (congrArg Prod.fst h) (by simp)
    · cases h

/-- Helper: `Nat.toDigitsCore` only ever prepends characters to its
accumulator. -/
theorem toDigitsCore_acc :
    ∀ (fuel n : Nat) (ds : List Char),
      Nat.toDigitsCore 10 fuel n ds = Nat.toDigitsCore 10 fuel n [] ++ ds := by
  intro fuel
  induction fuel with
  | zero => intro n ds; simp [Nat.toDigitsCore]
  | succ fuel ih =>
      intro n ds
      simp only [Nat.toDigitsCore]
      by_cases h : n / 10 = 0
      · simp [h]
      · simp only [if_neg h]
        rw [ih (n / 10) (Nat.digitChar (n % 10) :: ds),
          ih (n / 10) [Nat.digitChar (n % 10)], List.append_assoc]
        rfl

/-- Any fuel above `n` suffices for `Nat.toDigitsCore`. -/
theorem toDigitsCore_fuel :
    ∀ (n f₁ f₂ : Nat), n < f₁ → n < f₂ →
      Nat.toDigitsCore 10 f₁ n [] = Nat.toDigitsCore 10 f₂ n [] := by
  intro n
  induction n using Nat.strong_induction_on with
  | _ n ih =>
      intro f₁ f₂ h₁ h₂
      cases f₁ with
      | zero => omega
      | succ g₁ =>
        cases f₂ with
        | zero => omega
        | succ g₂ =>
            simp only [Nat.toDigitsCore]
            by_cases h : n / 10 = 0
            · simp [h]
            · simp only [if_neg h]
              have hn : 0 < n := by
                rcases Nat.eq_zero_or_pos n with h0 | h0
                · subst h0; simp at h
                · exact h0
              have hlt : n / 10 < n := Nat.div_lt_self hn (by norm_num)
              rw [toDigitsCore_acc g₁ (n / 10), toDigitsCore_acc g₂ (n / 10),
                ih (n / 10) hlt g₁ g₂ (by omega) (by omega)]

/-- The recursion equation of `Nat.toDigits` at base 10: the digits of
`n / 10` (if any) followed by the digit character of `n % 10`. -/
theorem toDigits_eq (n : Nat) :
    Nat.toDigits 10 n =
      (if n / 10 = 0 then [] else Nat.toDigits 10 (n / 10)) ++
        [Nat.digitChar (n % 10)] := by
  show Nat.toDigitsCore 10 (n + 1) n [] = _
  simp only [Nat.toDigitsCore]
  by_cases h : n / 10 = 0
  · simp [h]
  · simp only [if_neg h]
    have hn : 0 < n := by
      rcases Nat.eq_zero_or_pos n with h0 | h0
      · subst h0; simp at h
      · exact h0
    have hlt : n / 10 < n := Nat.div_lt_self hn (by norm_num)
    rw [toDigitsCore_acc n (n / 10),
      toDigitsCore_fuel (n / 10) n (n / 10 + 1) (by omega) (by omega)]
    rfl

/-- A decimal digit string is never empty. -/
theorem toDigits_ne_nil (n : Nat) : Nat.toDigits 10 n ≠ [] := by
  rw [toDigits_eq]
  simp

/-- Injectivity of `Nat.digitChar` on single digits (finite check). -/
theorem digitChar_inj_aux :
    ∀ a b : Fin 10, Nat.digitChar a.val = Nat.digitChar b.val → a = b := by
  decide

/-- Injectivity of `Nat.digitChar` below 10. -/
theorem digitChar_inj_lt {a b : Nat} (ha : a < 10) (hb : b < 10)
    (h : Nat.digitChar a = Nat.digitChar b) : a = b :=
  congrArg Fin.val (digitChar_inj_aux ⟨a, ha⟩ ⟨b, hb⟩ h)

/-- Decimal digit strings are injective. -/
theorem toDigits_inj :
    ∀ m n : Nat, Nat.toDigits 10 m = Nat.toDigits 10 n → m = n := by
  intro m
  induction m using Nat.strong_induction_on with
  | _ m ih =>
      intro n h
      rw [toDigits_eq m, toDigits_eq n] at h
      obtain ⟨hpre, hdig⟩ := List.append_inj' h rfl
      have hmod : m % 10 = n % 10 := by
        apply digitChar_inj_lt (Nat.mod_lt _ (by norm_num))
          (Nat.mod_lt _ (by norm_num))
        simpa using hdig
      by_cases hm : m / 10 = 0
      · by_cases hn : n / 10 = 0
        · omega
        · rw [if_pos hm, if_neg hn] at hpre
          exact absurd hpre.symm (toDigits_ne_nil _)
      · by_cases hn : n / 10 = 0
        · rw [if_neg hm, if_pos hn] at hpre
          exact absurd hpre (toDigits_ne_nil _)
        · rw [if_neg hm, if_neg hn] at hpre
          have hmpos : 0 < m := by
            rcases Nat.eq_zero_or_pos m with h0 | h0
            · subst h0; simp at hm
            · exact h0
          have := ih (m / 10) (Nat.div_lt_self hmpos (by norm_num)) (n / 10) hpre
          omega

/-- Injectivity of `Nat.repr`: distinct naturals have distinct decimal
strings. -/
theorem repr_inj {m n : Nat} (h : Nat.repr m = Nat.repr n) : m = n := by
  apply toDigits_inj
  have hd := congrArg String.data h
  simpa [Nat.repr, List.asString] using hd

/-- The name the lazy-index rule (`format!("file{}", index())`) gives to
index `k`. -/
def nameOf (k : Nat) : String := "file" ++ Nat.repr k

/-- Lazy-index names are injective. -/
theorem nameOf_inj {m n : Nat} (h : nameOf m = nameOf n) : m = n := by
  apply repr_inj
  apply String.ext
  have hd := congrArg String.data h
  simp only [nameOf, String.data_append] at hd
  exact List.append_cancel_left hd

/-- The binary parts of a run of pending files starting at index
`start` under the lazy-index naming rule. -/
def labelFrom (start : Nat) : List InputFile → List (String × InputFile)
  | [] => []
  | f :: rest => (nameOf start, f) :: labelFrom (start + 1) rest

theorem labelFrom_length (l : List InputFile) :
    ∀ s, (labelFrom s l).length = l.length := by
  induction l with
  | nil => intro s; rfl
  | cons f rest ih => intro s; simp [labelFrom, ih (s + 1)]

theorem labelFrom_append (l₁ l₂ : List InputFile) :
    ∀ s, labelFrom s (l₁ ++ l₂) =
      labelFrom s l₁ ++ labelFrom (s + l₁.length) l₂ := by
  induction l₁ with
  | nil => intro s; simp [labelFrom]
  | cons f rest ih =>
      intro s
      have harith : s + 1 + rest.length = s + (rest.length + 1) := by omega
      simp only [List.cons_append, labelFrom, List.length_cons, List.append_eq]
      rw [ih (s + 1), harith]

theorem labelFrom_map_snd (l : List InputFile) :
    ∀ s, (labelFrom s l).map Prod.snd = l := by
  induction l with
  | nil => intro s; rfl
  | cons f rest ih => intro s; simp [labelFrom, ih (s + 1)]

theorem labelFrom_map_fst (l : List InputFile) :
    ∀ s, (labelFrom s l).map Prod.fst = (List.range' s l.length).map nameOf := by
  induction l with
  | nil => intro s; rfl
  | cons f rest ih => intro s; simp [labelFrom, List.range'_succ, ih (s + 1)]

/-- The pending file, if any, held by a `FileUpload` field. -/
def pendingFU : FileUpload → List InputFile
  | .InputFile f => [f]
  | .String _ => []

/-- The pending file, if any, held by an `Option FileUpload` field. -/
def pendingOpt : Option FileUpload → List InputFile
  | some (.InputFile f) => [f]
  | _ => []

/-- The pending files of one media-group item, in the order
`send_media_group` visits the item's fields: the primary `media` field
first, then for audio the thumbnail, and for video the cover then the
thumbnail. -/
def itemPending : MediaGroupInputMedia → List InputFile
  | .Audio a => pendingFU a.media ++ pendingOpt a.thumbnail
  | .Document d => pendingFU d.media
  | .Photo p => pendingFU p.media
  | .Video v => pendingFU v.media ++ pendingOpt v.cover ++ pendingOpt v.thumbnail

/-- One `replace_attach!` step on a `FileUpload` field appends exactly
the field's pending file, named after the current accumulator length. -/
theorem pushAttachDynFU_spec (f : FileUpload) (fs : List (String × InputFile)) :
    ∃ f', pushAttachDynFU f fs =
      (f', fs ++ labelFrom fs.length (pendingFU f)) := by
  cases f with
  | String s =>
      exact ⟨.String s,
        by simp [pushAttachDynFU, replace_attach_dyn, pendingFU, labelFrom]⟩
  | InputFile file =>
      exact ⟨.String ("attach://" ++ ("file" ++ Nat.repr fs.length)),
        by simp [pushAttachDynFU, replace_attach_dyn, pendingFU, labelFrom, nameOf]⟩

/-- One `replace_attach!` step on an `Option FileUpload` field appends
exactly the field's pending file, named after the current accumulator
length. -/
theorem pushAttachDynOpt_spec (f : Option FileUpload) (fs : List (String × InputFile)) :
    ∃ f', pushAttachDynOpt f fs =
      (f', fs ++ labelFrom fs.length (pendingOpt f)) := by
  rcases f with _ | fu
  · exact ⟨none,
      by simp [pushAttachDynOpt, replace_attach_dyn_opt, pendingOpt, labelFrom]⟩
  · cases fu with
    | String s =>
        exact ⟨some (.String s),
          by simp [pushAttachDynOpt, replace_attach_dyn_opt, pendingOpt, labelFrom]⟩
    | InputFile file =>
        exact ⟨some (.String ("attach://" ++ ("file" ++ Nat.repr fs.length))),
          by simp [pushAttachDynOpt, replace_attach_dyn_opt, pendingOpt, labelFrom, nameOf]⟩

/-- One media-group item appends exactly its pending files, named by
consecutive lazy indices starting at the current accumulator length. -/
theorem extractMediaGroupItem_spec (m : MediaGroupInputMedia)
    (files : List (String × InputFile)) :
    ∃ m', extractMediaGroupItem m files =
      (m', files ++ labelFrom files.length (itemPending m)) := by
  cases m with
  | Audio a =>
      obtain ⟨m', hm⟩ := pushAttachDynFU_spec a.media files
      obtain ⟨t', ht⟩ := pushAttachDynOpt_spec a.thumbnail
        (files ++ labelFrom files.length (pendingFU a.media))
      refine ⟨.Audio { a with media := m', thumbnail := t' }, ?_⟩
      simp only [extractMediaGroupItem, hm, ht, itemPending, labelFrom_append,
        List.length_append, labelFrom_length, List.append_assoc]
  | Document d =>
      obtain ⟨m', hm⟩ := pushAttachDynFU_spec d.media files
      exact ⟨.Document { d with media := m' }, by
        simp only [extractMediaGroupItem, hm, itemPending]⟩
  | Photo p =>
      obtain ⟨m', hm⟩ := pushAttachDynFU_spec p.media files
      exact ⟨.Photo { p with media := m' }, by
        simp only [extractMediaGroupItem, hm, itemPending]⟩
  | Video v =>
      obtain ⟨m', hm⟩ := pushAttachDynFU_spec v.media files
      obtain ⟨c', hc⟩ := pushAttachDynOpt_spec v.cover
        (files ++ labelFrom files.length (pendingFU v.media))
      obtain ⟨t', ht⟩ := pushAttachDynOpt_spec v.thumbnail
        ((files ++ labelFrom files.length (pendingFU v.media)) ++
          labelFrom (files ++ labelFrom files.length (pendingFU v.media)).length
            (pendingOpt v.cover))
      refine ⟨.Video { v with media := m', cover := c', thumbnail := t' }, ?_⟩
      simp only [extractMediaGroupItem, hm]
      simp only [hc]
      simp only [ht]
      simp [itemPending, labelFrom_append, List.length_append, labelFrom_length,
        List.append_assoc, Nat.add_assoc]

/-- The `send_media_group` loop appends exactly the pending files of all
items in sequence order, named by consecutive lazy indices. -/
theorem extractMediaList_spec (ms : List MediaGroupInputMedia) :
    ∀ files, ∃ ms', extractMediaList ms files =
      (ms', files ++ labelFrom files.length (ms.flatMap itemPending)) := by
  induction ms with
  | nil => intro files; exact ⟨[], by simp [extractMediaList, labelFrom]⟩
  | cons m rest ih =>
      intro files
      obtain ⟨m', hm⟩ := extractMediaGroupItem_spec m files
      obtain ⟨rest', hr⟩ := ih (files ++ labelFrom files.length (itemPending m))
      refine ⟨m' :: rest', ?_⟩
      simp only [extractMediaList, hm, hr, List.flatMap_cons, labelFrom_append,
        List.length_append, labelFrom_length, List.append_assoc]

/-- The binary-part list `send_media_group` hands to the transport. -/
def send_media_group_files (params : SendMediaGroupParams) : List (String × InputFile) :=
  (extractMediaList params.media []).2

/-- C5: for a `send_media_group` call, the binary-part list passed to
the transport has exactly one entry per pending file field, the part
names are pairwise distinct, and the parts' files appear in item
sequence order with, inside each item, the primary `media` field before
the secondary fields (video: media, cover, thumbnail; audio: media,
thumbnail) — as laid out by `itemPending`. -/
theorem send_media_group_batch_spec (params : SendMediaGroupParams) :
    (∃ media', send_media_group params =
      request_with_possible_form_data "sendMediaGroup"
        { params with media := media' } (send_media_group_files params)) ∧
    (send_media_group_files params).length =
      (params.media.flatMap itemPending).length ∧
    (send_media_group_files params).map Prod.snd =
      params.media.flatMap itemPending ∧
    ((send_media_group_files params).map Prod.fst).Nodup := by
  obtain ⟨ms', hm⟩ := extractMediaList_spec params.media []
  have hfiles : send_media_group_files params =
      labelFrom 0 (params.media.flatMap itemPending) := by
    simp only [send_media_group_files, hm]
    simp
  refine ⟨⟨ms', ?_⟩, ?_, ?_, ?_⟩
  · simp only [send_media_group, hm, send_media_group_files]
  · rw [hfiles, labelFrom_length]
  · rw [hfiles, labelFrom_map_snd]
  · rw [hfiles, labelFrom_map_fst]
    exact (List.nodup_range' 0 _).map fun a b h => nameOf_inj h

/-- The parts `create_new_sticker_set` collects from the stickers
starting at position `index`: the sticker at position `i` contributes,
if pending, one part named after `i` itself. -/
def stickerParts : List InputSticker → Nat → List (String × InputFile)
  | [], _ => []
  | s :: rest, index =>
      (match s.sticker with
        | .InputFile f => [(nameOf index, f)]
        | .String _ => []) ++ stickerParts rest (index + 1)

/-- The `create_new_sticker_set` loop appends exactly the parts of the
pending stickers, each named after its sticker's position. -/
theorem extractStickers_spec (stickers : List InputSticker) :
    ∀ index files, ∃ stickers',
      extractStickers stickers index files =
        (stickers', files ++ stickerParts stickers index) := by
  induction stickers with
  | nil => intro i fs; exact ⟨[], by simp [extractStickers, stickerParts]⟩
  | cons s rest ih =>
      intro i fs
      cases hs : s.sticker with
      | String str =>
          obtain ⟨rest', hr⟩ := ih (i + 1) fs
          refine ⟨{ s with sticker := .String str } :: rest', ?_⟩
          simp [extractStickers, hs, replace_attach_dyn, hr, stickerParts,
            List.append_assoc]
      | InputFile file =>
          obtain ⟨rest', hr⟩ := ih (i + 1) (fs ++ [("file" ++ Nat.repr i, file)])
          refine ⟨{ s with
            sticker := .String ("attach://" ++ ("file" ++ Nat.repr i)) } :: rest', ?_⟩
          simp [extractStickers, hs, replace_attach_dyn, hr, stickerParts, nameOf,
            List.append_assoc]

/-- C4 counterexample: in `create_new_sticker_set`, a pass over
`[Reference "existing", Pending (Path "a.png")]` produces the single
binary part `("file1", Path "a.png")` — its 0-th part is named
`"file1"`, not `"file0"`, because the enumerate index counts all visited
stickers, not only those that produced a part. -/
theorem lazy_index_counterexample :
    create_new_sticker_set
      ⟨7, "pack",
        [⟨.String "existing", "static"⟩, ⟨.InputFile (.Path "a.png"), "static"⟩]⟩ =
      Transport.request_with_form_data "createNewStickerSet"
        ⟨7, "pack",
          [⟨.String "existing", "static"⟩, ⟨.String "attach://file1", "static"⟩]⟩
        [("file1", .Path "a.png")] ∧
    ([("file1", InputFile.Path "a.png")].map Prod.fst ≠
      [("file0", InputFile.Path "a.png")].map Prod.fst) :=
  ⟨rfl, by decide⟩

/-- C4 (amended): in `send_media_group` the lazy index
(`|| files.len()`) tracks only the fields that truly produced a part, so
the k-th part produced is named `"file" ++ k`; in
`create_new_sticker_set` the index is the sticker's position in the
sequence (`enumerate`), so the part a pending sticker produces is named
after that position, already-Reference stickers included. -/
theorem lazy_index_naming_amended :
    (∀ params : SendMediaGroupParams,
      (send_media_group_files params).map Prod.fst =
        (List.range (params.media.flatMap itemPending).length).map nameOf) ∧
    (∀ (stickers : List InputSticker) (index : Nat)
        (files : List (String × InputFile)),
      (extractStickers stickers index files).2 =
        files ++ stickerParts stickers index) := by
  constructor
  · intro params
    obtain ⟨ms', hm⟩ := extractMediaList_spec params.media []
    have hfiles : send_media_group_files params =
        labelFrom 0 (params.media.flatMap itemPending) := by
      simp only [send_media_group_files, hm]
      simp
    rw [hfiles, labelFrom_map_fst, List.range_eq_range']
  · intro stickers index files
    obtain ⟨st', hs⟩ := extractStickers_spec stickers index files
    rw [hs]

/-- Witness for C2 at concrete inputs: a Reference field with two
different index thunks, and a Pending field at index 3. -/
theorem replace_attach_dyn_spec_witness :
    replace_attach_dyn (.String "ref") (fun _ => 0) =
      replace_attach_dyn (.String "ref") (fun _ => 7) ∧
    replace_attach_dyn (.String "ref") (fun _ => 0) = (.String "ref", none) ∧
    replace_attach_dyn (.InputFile (.Path "a.png")) (fun _ => 3) =
      (.String ("attach://file" ++ Nat.repr 3),
       some ("file" ++ Nat.repr 3, .Path "a.png")) :=
  ⟨(replace_attach_dyn_spec.1 "ref" (fun _ => 0) (fun _ => 7)).1,
   (replace_attach_dyn_spec.1 "ref" (fun _ => 0) (fun _ => 7)).2,
   replace_attach_dyn_spec.2 (.Path "a.png") (fun _ => 3)⟩

/-- Witness for C3 at concrete parameter structures. -/
theorem mandatory_file_ops_spec_witness :
    set_chat_photo ⟨1, .Path "p.png"⟩ =
      Transport.request_with_form_data "setChatPhoto" ⟨1, .Path "p.png"⟩
        [("photo", .Path "p.png")] ∧
    upload_sticker_file ⟨2, .Path "s.png", "static"⟩ =
      Transport.request_with_form_data "uploadStickerFile"
        ⟨2, .Path "s.png", "static"⟩ [("sticker", .Path "s.png")] ∧
    set_chat_photo ⟨1, .Path "p.png"⟩ ≠
      Transport.request "setChatPhoto" (some ⟨1, .Path "p.png"⟩) :=
  ⟨(mandatory_file_ops_spec.1 ⟨1, .Path "p.png"⟩).1,
   (mandatory_file_ops_spec.2 ⟨2, .Path "s.png", "static"⟩).1,
   (mandatory_file_ops_spec.1 ⟨1, .Path "p.png"⟩).2 "setChatPhoto"
     (some ⟨1, .Path "p.png"⟩)⟩

/-- Witness for C6 at a concrete in-memory file. -/
theorem input_file_serialize_null_witness :
    InputFile.serialize (.Memory "demo.bin" [0, 1, 2, 3]) = Json.null ∧
    (FileUpload.InputFile (.Memory "demo.bin" [0, 1, 2, 3])).serialize = Json.null :=
  ⟨input_file_serialize_null.1 (.Memory "demo.bin" [0, 1, 2, 3]),
   input_file_serialize_null.2.1 "demo.bin" [0, 1, 2, 3]⟩

/-- Witness for C8 at concrete bytes. -/
theorem send_video_end_to_end_witness :
    send_video
      ⟨10, .InputFile (.Memory "clip.mp4" [1, 2]),
        some (.String "file_id_123"),
        some (.InputFile (.Memory "thumb.jpg" [3, 4]))⟩ =
      Transport.request_with_form_data "sendVideo"
        ⟨10, .String "attach://video", some (.String "file_id_123"),
          some (.String "attach://thumbnail")⟩
        [("video", .Memory "clip.mp4" [1, 2]),
         ("thumbnail", .Memory "thumb.jpg" [3, 4])] :=
  send_video_end_to_end 10 [1, 2] [3, 4]

/-- Witness for C9 at concrete parameter structures. -/
theorem caller_params_untouched_witness :
    (send_video_call ⟨1, .InputFile (.Path "v.mp4"), none, none⟩).1 =
      (⟨1, .InputFile (.Path "v.mp4"), none, none⟩ : SendVideoParams) ∧
    (set_chat_photo_call ⟨2, .Path "p.png"⟩).1 =
      (⟨2, .Path "p.png"⟩ : SetChatPhotoParams) :=
  ⟨caller_params_untouched.1 ⟨1, .InputFile (.Path "v.mp4"), none, none⟩,
   caller_params_untouched.2.2.2.2.2.1 ⟨2, .Path "p.png"⟩⟩

/-- Witness for C10 at concrete optional fields. -/
theorem replace_attach_opt_spec_witness :
    replace_attach_opt none "thumbnail" = (none, none) ∧
    replace_attach_opt (some (.String "id")) "thumbnail" =
      (some (.String "id"), none) ∧
    replace_attach_opt (some (.InputFile (.Path "t.jpg"))) "thumbnail" =
      (some (.String ("attach://" ++ "thumbnail")), some (.Path "t.jpg")) ∧
    replace_attach_dyn_opt none (fun _ => 0) =
      replace_attach_dyn_opt none (fun _ => 9) ∧
    replace_attach_dyn_opt (some (.InputFile (.Path "t.jpg"))) (fun _ => 2) =
      (some (.String ("attach://file" ++ Nat.repr 2)),
       some ("file" ++ Nat.repr 2, .Path "t.jpg")) :=
  ⟨replace_attach_opt_spec.1 "thumbnail",
   replace_attach_opt_spec.2.1 "thumbnail" "id",
   replace_attach_opt_spec.2.2.1 "thumbnail" (.Path "t.jpg"),
   (replace_attach_opt_spec.2.2.2.1 (fun _ => 0) (fun _ => 9)).1,
   replace_attach_opt_spec.2.2.2.2.2 (fun _ => 2) (.Path "t.jpg")⟩

/-- Witness for C5 at a concrete two-item media group holding two
pending files and one already-Reference field. -/
theorem send_media_group_batch_spec_witness :
    (send_media_group_files
      ⟨5, [.Video ⟨.InputFile (.Path "v.mp4"), some (.String "c"),
          some (.InputFile (.Path "t.jpg"))⟩,
        .Photo ⟨.String "p"⟩]⟩).length = 2 ∧
    ((send_media_group_files
      ⟨5, [.Video ⟨.InputFile (.Path "v.mp4"), some (.String "c"),
          some (.InputFile (.Path "t.jpg"))⟩,
        .Photo ⟨.String "p"⟩]⟩).map Prod.fst).Nodup := by
  have h := send_media_group_batch_spec
    ⟨5, [.Video ⟨.InputFile (.Path "v.mp4"), some (.String "c"),
        some (.InputFile (.Path "t.jpg"))⟩,
      .Photo ⟨.String "p"⟩]⟩
  exact ⟨by rw [h.2.1]; rfl, h.2.2.2⟩

/-- Witness for C4 (amended) at concrete inputs: a media group whose
parts are named `file0`, `file1`, and the counterexample sticker list
whose single part is named after its sticker's position. -/
theorem lazy_index_naming_amended_witness :
    (send_media_group_files
      ⟨5, [.Video ⟨.InputFile (.Path "v.mp4"), some (.String "c"),
          some (.InputFile (.Path "t.jpg"))⟩]⟩).map Prod.fst =
      [nameOf 0, nameOf 1] ∧
    (extractStickers
      [⟨.String "existing", "static"⟩, ⟨.InputFile (.Path "a.png"), "static"⟩]
      0 []).2 =
      [] ++ stickerParts
        [⟨.String "existing", "static"⟩, ⟨.InputFile (.Path "a.png"), "static"⟩] 0 := by
  constructor
  · rw [lazy_index_naming_amended.1
      ⟨5, [.Video ⟨.InputFile (.Path "v.mp4"), some (.String "c"),
          some (.InputFile (.Path "t.jpg"))⟩]⟩]
    rfl
  · exact lazy_index_naming_amended.2
      [⟨.String "existing", "static"⟩, ⟨.InputFile (.Path "a.png"), "static"⟩] 0 []

end Frankenstein
